import Mathlib

/-!
Verification of the MDN RAG retrieval pipeline (johntmunger/rag-mdn-ai-chatbot).

This file gives a shallow embedding, in Lean, of the core retrieval-pipeline
code of the repository and proves (or refutes) the frozen specification claims
about it.  Text is modelled as Lean `String` (a packed `List Char`; JavaScript
string indices are UTF-16 code units while Lean chars are code points, a
difference that is irrelevant to every property below).  JavaScript numbers
appearing as embedding coordinates are modelled as rationals; the vector
store's native cosine-distance operator `<=>` is an external service and is
therefore a parameter `dist` of the retrieval model.
-/

namespace RagMdn

/-! ## String utilities with JavaScript semantics -/

/-- Character class of the JavaScript `\s` regex class and of the characters
stripped by `String.prototype.trim` (restricted to the ASCII range that can
occur in the repository's markdown sources). -/
def isWs (c : Char) : Bool :=
  c = ' ' || c = '\t' || c = '\n' || c = '\r' || c = '\x0b' || c = '\x0c'

/-- JavaScript `s.trim()`: strip whitespace from both ends. -/
def trimJS (s : String) : String :=
  String.mk (((s.data.dropWhile isWs).reverse.dropWhile isWs).reverse)

/-- Helper for `splitLines`: split a character list at every newline.
Always returns at least one (possibly empty) segment, like JS `split`. -/
def splitOnNl : List Char → List (List Char)
  | [] => [[]]
  | c :: cs =>
    match splitOnNl cs with
    | [] => [[c]]
    | l :: ls => if c = '\n' then [] :: l :: ls else (c :: l) :: ls

/-- JavaScript `s.split("\n")`. -/
def splitLines (s : String) : List String :=
  (splitOnNl s.data).map String.mk

/-- JavaScript `s.substring(0, n)`. -/
def strTake (n : Nat) (s : String) : String :=
  String.mk (s.data.take n)

/-- JavaScript `s.includes(pat)`: substring containment. -/
def strIncludes (s pat : String) : Bool :=
  decide (pat.data <:+: s.data)

/-- Length of the match of the JS regex `^\n+` (0 when it does not match),
i.e. the number of leading newline characters. -/
def leadingNewlines (s : String) : Nat :=
  (s.data.takeWhile (· = '\n')).length

/-- JavaScript `s.replace(/^\n+/, "")`. -/
def dropLeadingNewlines (s : String) : String :=
  String.mk (s.data.dropWhile (· = '\n'))

/-- JavaScript truthiness of a nullable string: `null`, `undefined` and `""`
are falsy. -/
def jsTruthy : Option String → Bool
  | some s => s ≠ ""
  | none => false

/-- JavaScript `v || d` for a nullable string `v`. -/
def jsOr (v : Option String) (d : String) : String :=
  match v with
  | some s => if s = "" then d else s
  | none => d

/-- JavaScript `v || null` for a nullable string `v` (empty string collapses
to null). -/
def jsOrNull (v : Option String) : Option String :=
  if jsTruthy v then v else none

/-- JavaScript template interpolation of a nullable string: `null` prints as
the four-character string `"null"`. -/
def jsTemplate : Option String → String
  | some s => s
  | none => "null"

/-- Model of `array.map((x, idx) => f(idx, x))`, carrying the running index. -/
def mapWithIdx (f : Nat → α → β) : Nat → List α → List β
  | _, [] => []
  | i, a :: as => f i a :: mapWithIdx f (i + 1) as

/-- Model of the JS batching loop `for (let i = 0; i < l.length; i += bs)`
slicing `l.slice(i, i + bs)`.  The JS loop never terminates when `bs = 0`
(the scripts always use a positive batch size); the model returns `[]` in
that degenerate case.  The fuel argument of the auxiliary function is an
upper bound on the number of slices, so evaluation is structural. -/
def toBatchesAux (bs : Nat) : Nat → List α → List (List α)
  | 0, _ => []
  | _, [] => []
  | fuel + 1, l => l.take bs :: toBatchesAux bs fuel (l.drop bs)

/-- Slice a list into consecutive batches of size `bs` (last one shorter). -/
def toBatches (bs : Nat) (l : List α) : List (List α) :=
  if bs = 0 then [] else toBatchesAux bs l.length l

/-! ## Structural chunker — `src/scripts/chunk_docs/chunk-mdn.ts`

The two external libraries the chunker calls — `gray-matter` (front-matter
parsing) and langchain's `RecursiveCharacterTextSplitter` — are collaborators
outside the repository; the model therefore takes their outputs as inputs:
`rawMarkdownContent` is whatever `matter(content).content` returned and
`splitTexts` is the list of chunk texts produced by the splitter. -/

/-- Model of the regex match `line.match(/^(#{1,6})\s+(.+)$/)`, returning
the heading level (length of group 1) and the *trimmed* group 2, as used at
both call sites.  Group 2 is the rest of the line after the maximal leading
whitespace run; when the rest of the line is nothing but two or more
whitespace characters the regex still matches (backtracking leaves one
whitespace character for `.+`) and the trimmed group is empty. -/
def headingMatch (line : String) : Option (Nat × String) :=
  let cs := line.data
  let k := (cs.takeWhile (· = '#')).length
  if 1 ≤ k ∧ k ≤ 6 then
    let rest := cs.drop k
    let w := (rest.takeWhile isWs).length
    if w = 0 then none
    else if w < rest.length then some (k, trimJS (String.mk (rest.drop w)))
    else if 2 ≤ w then some (k, "")
    else none
  else none

/-- Model of `extractHeading` (chunk-mdn.ts): first heading line found in the
trimmed chunk text, else `("", 0)`. -/
def extractHeading (text : String) : String × Nat :=
  match (splitLines (trimJS text)).findSome?
      (fun l => (headingMatch l).map (fun p => (p.2, p.1))) with
  | some r => r
  | none => ("", 0)

/-- Model of `findHeadingContext` (chunk-mdn.ts): scan backward from line
index `startLine - 1` (0-indexed) for the nearest heading line. -/
def findHeadingContext (lines : List String) (startLine : Nat) : String × Nat :=
  match ((lines.take startLine).reverse).findSome?
      (fun l => (headingMatch l).map (fun p => (p.2, p.1))) with
  | some r => r
  | none => ("", 0)

/-- The forward scan of `calculateLineNumbers` (chunk-mdn.ts lines 100-109):
starting at index `previousEndLine`, find the first original line whose trim
equals the target or which contains the target's first 50 characters; the
1-indexed start line is that index + 1, defaulting to `previousEndLine + 1`
when no line matches. -/
def locateStartLine (originalLines : List String) (target : String)
    (previousEndLine : Nat) : Nat :=
  match (List.range' previousEndLine (originalLines.length - previousEndLine)).find?
      (fun i => trimJS (originalLines.getD i "") == target
        || strIncludes (originalLines.getD i "") (strTake 50 target)) with
  | some i => i + 1
  | none => previousEndLine + 1

/-- Model of `calculateLineNumbers` (chunk-mdn.ts): locate the chunk's first
non-empty line in the original body, scanning forward from the previous
chunk's end line — never backward — and derive the 1-indexed inclusive line
range from the chunk's own line count. -/
def calculateLineNumbers (originalText chunkText : String)
    (previousEndLine : Nat) : Nat × Nat :=
  let originalLines := splitLines originalText
  let chunkLines := splitLines chunkText
  let firstNonEmptyLine :=
    match chunkLines.find? (fun l => decide (0 < (trimJS l).length)) with
    | some l => l
    | none => strTake 50 chunkText
  let startLine := locateStartLine originalLines (trimJS firstNonEmptyLine) previousEndLine
  (startLine, startLine + chunkLines.length - 1)

/-- The delimiter scan of `calculateFrontmatterOffset` (chunk-mdn.ts lines
126-139): the 0-indexed position of the second line whose trim is `---`
(the first is the opening front-matter delimiter, the second the closing
one), scanning the file's lines from the top. -/
def closingDelimiterIdx (originalContent : String) : Option Nat :=
  let lines := splitLines originalContent
  ((List.range lines.length).filter (fun i => trimJS (lines.getD i "") == "---"))[1]?

/-- Model of `calculateFrontmatterOffset` (chunk-mdn.ts): 0 when gray-matter
passed the content through unchanged, otherwise the 1-indexed line number of
the closing front-matter delimiter, or 0 when no such line exists. -/
def calculateFrontmatterOffset (originalContent contentAfterFrontmatter : String) : Nat :=
  if originalContent == contentAfterFrontmatter then 0
  else
    match closingDelimiterIdx originalContent with
    | some i => i + 1
    | none => 0

/-- The front-matter line offset actually used by `chunkMarkdownFile`:
`calculateFrontmatterOffset(content, rawMarkdownContent) + leadingBlankLines`. -/
def frontmatterLineOffset (content rawMarkdownContent : String) : Nat :=
  calculateFrontmatterOffset content rawMarkdownContent + leadingNewlines rawMarkdownContent

/-- JavaScript `s.replace(/\//g, "_")`. -/
def slashesToUnderscores (s : String) : String :=
  String.mk (s.data.map (fun c => if c = '/' then '_' else c))

/-- JavaScript `s.replace(/\.md$/, "")`. -/
def dropMdSuffix (s : String) : String :=
  if s.endsWith ".md" then String.mk (s.data.take (s.data.length - 3)) else s

/-- Chunk id: `relativePath.replace(/\//g, "_").replace(/\.md$/, "") + "_chunk_" + i`. -/
def chunkId (relativePath : String) (i : Nat) : String :=
  dropMdSuffix (slashesToUnderscores relativePath) ++ "_chunk_" ++ toString i

/-- Number of maximal non-whitespace runs in a character list. -/
def countRuns : List Char → Nat
  | [] => 0
  | c :: cs =>
    if isWs c then countRuns cs
    else 1 + countRuns (cs.dropWhile (fun d => !isWs d))
termination_by l => l.length
decreasing_by
  · simp only [List.length_cons]; omega
  · have := (List.dropWhile_sublist (l := cs) (fun d => !isWs d)).length_le
    simp only [List.length_cons]; omega

/-- JavaScript `chunkText.trim().split(/\s+/).length` (note `"".split(/\s+/)`
is `[""]`, of length 1). -/
def wordCount (s : String) : Nat :=
  let t := (trimJS s).data
  if t.isEmpty then 1 else countRuns t

/-- Front-matter metadata fields copied into every chunk (produced by the
external gray-matter parser, hence an input of the model). -/
structure FrontmatterData where
  title : Option String := none
  slug : Option String := none
  pageType : Option String := none
  sidebar : Option String := none
deriving DecidableEq

/-- The per-chunk metadata record built by `chunkMarkdownFile`. -/
structure ChunkMeta where
  source : String
  chunkIndex : Nat
  startLine : Nat
  endLine : Nat
  heading : String
  headingLevel : Nat
  title : Option String
  slug : Option String
  pageType : Option String
  sidebar : Option String
deriving DecidableEq

/-- The chunk record emitted by the chunker (interface `Chunk` in
chunk-mdn.ts, also interface `ChunkData` of the ingestion and embedding
scripts). -/
structure Chunk where
  id : String
  text : String
  characterCount : Nat
  wordCount : Nat
  metadata : ChunkMeta
deriving DecidableEq

/-- The chunk-assembly loop of `chunkMarkdownFile` (lines 197-259): one chunk
per splitter document, threading `previousEndLine` and the running index. -/
def buildChunks (markdownContent : String) (contentLines : List String)
    (fmOffset : Nat) (relativePath : String) (fm : FrontmatterData) :
    Nat → Nat → List String → List Chunk
  | _, _, [] => []
  | i, previousEndLine, t :: ts =>
    let r := calculateLineNumbers markdownContent t previousEndLine
    let hc := findHeadingContext contentLines (r.1 - 1)
    let eh := extractHeading t
    let finalHeading := if hc.1 ≠ "" then hc.1 else if eh.1 ≠ "" then eh.1 else "Introduction"
    let finalLevel := if hc.2 ≠ 0 then hc.2 else if eh.2 ≠ 0 then eh.2 else 1
    { id := chunkId relativePath i
      text := t
      characterCount := t.data.length
      wordCount := wordCount t
      metadata :=
        { source := relativePath
          chunkIndex := i
          startLine := r.1 + fmOffset
          endLine := r.2 + fmOffset
          heading := finalHeading
          headingLevel := finalLevel
          title := fm.title
          slug := fm.slug
          pageType := fm.pageType
          sidebar := fm.sidebar } } ::
      buildChunks markdownContent contentLines fmOffset relativePath fm (i + 1) r.2 ts

/-- Model of `chunkMarkdownFile` (chunk-mdn.ts): trim leading blank lines
from the gray-matter body, compute the front-matter offset, and assemble one
chunk per splitter output text. -/
def chunkMarkdownFile (content rawMarkdownContent : String) (fm : FrontmatterData)
    (relativePath : String) (splitTexts : List String) : List Chunk :=
  let markdownContent := dropLeadingNewlines rawMarkdownContent
  let fmOffset := frontmatterLineOffset content rawMarkdownContent
  buildChunks markdownContent (splitLines markdownContent) fmOffset relativePath fm 0 0 splitTexts

/-! ## Vector store rows and ingestion — `src/scripts/ingest-chunks.ts` and
`src/src/db/schema.ts`

The `document_embeddings` table (schema.ts) has `id` as its `primaryKey()`.
`insertValues` models a PostgreSQL multi-row `INSERT` into that table: the
statement fails as a whole when any inserted id collides with an existing
row or with another row of the same statement, and the source's
`db.insert(documentEmbeddings).values(batchData)` carries no
`onConflictDoUpdate` clause. -/

/-- A row of the `document_embeddings` table. -/
structure DBRow where
  id : String
  text : String
  characterCount : Nat
  wordCount : Nat
  embedding : Option (List ℚ)
  source : String
  chunkIndex : Nat
  startLine : Nat
  endLine : Nat
  heading : Option String
  headingLevel : Option Nat
  title : Option String
  slug : Option String
  pageType : Option String
  sidebar : Option String
deriving DecidableEq

/-- Does some later row of the list repeat the id of an earlier one? -/
def hasDupIds : List DBRow → Bool
  | [] => false
  | r :: rs => rs.any (fun s => s.id == r.id) || hasDupIds rs

/-- Does inserting `rows` into `store` violate the primary-key constraint? -/
def hasConflict (store rows : List DBRow) : Bool :=
  rows.any (fun r => store.any (fun s => s.id == r.id)) || hasDupIds rows

/-- PostgreSQL `INSERT` semantics for the `document_embeddings` table:
append the rows, or fail the whole statement on a primary-key conflict. -/
def insertValues (store rows : List DBRow) : Option (List DBRow) :=
  if hasConflict store rows then none else some (store ++ rows)

/-- Mock embedding of `ingest-chunks.ts` (`generateMockEmbedding`): 1536
values `Math.random() * 2 - 1`; the random source is abstracted as `rand`. -/
def generateMockEmbedding (rand : Nat → ℚ) : List ℚ :=
  (List.range 1536).map (fun i => rand i * 2 - 1)

/-- The `batchData` mapping of `ingestChunks` (ingest-chunks.ts lines
115-132): one table row per chunk; `||` turns empty/zero metadata fields
into SQL `NULL`. -/
def rowOfChunk (useMockEmbeddings : Bool) (rand : Nat → ℚ) (c : Chunk) : DBRow :=
  { id := c.id
    text := c.text
    characterCount := c.characterCount
    wordCount := c.wordCount
    embedding := if useMockEmbeddings then some (generateMockEmbedding rand) else none
    source := c.metadata.source
    chunkIndex := c.metadata.chunkIndex
    startLine := c.metadata.startLine
    endLine := c.metadata.endLine
    heading := if c.metadata.heading = "" then none else some c.metadata.heading
    headingLevel := if c.metadata.headingLevel = 0 then none else some c.metadata.headingLevel
    title := jsOrNull c.metadata.title
    slug := jsOrNull c.metadata.slug
    pageType := jsOrNull c.metadata.pageType
    sidebar := jsOrNull c.metadata.sidebar }

/-- The statistics record of `ingestChunks` (fields relevant to
persistence: chunks actually inserted and the collected batch errors). -/
structure IngestStats where
  insertedChunks : Nat
  errors : List String
deriving DecidableEq

/-- The batch loop of `ingestChunks` (ingest-chunks.ts lines 106-144): try
to insert each batch; a failed batch is recorded in `errors` and skipped,
processing continues with the next batch. -/
def ingestBatchesAux : Nat → List DBRow → IngestStats → List (List DBRow) → List DBRow × IngestStats
  | _, store, stats, [] => (store, stats)
  | batchNum, store, stats, b :: bs =>
    match insertValues store b with
    | some store' =>
        ingestBatchesAux (batchNum + 1) store'
          { stats with insertedChunks := stats.insertedChunks + b.length } bs
    | none =>
        ingestBatchesAux (batchNum + 1) store
          { stats with errors := stats.errors ++ [s!"Batch {batchNum} failed"] } bs

/-- Model of `ingestChunks` (ingest-chunks.ts): slice all collected chunks
into batches of `batchSize` and insert batch by batch into the store. -/
def ingestChunks (store : List DBRow) (useMockEmbeddings : Bool) (rand : Nat → ℚ)
    (batchSize : Nat) (allChunks : List Chunk) : List DBRow × IngestStats :=
  ingestBatchesAux 1 store { insertedChunks := 0, errors := [] }
    ((toBatches batchSize allChunks).map (List.map (rowOfChunk useMockEmbeddings rand)))

/-! ## Embedding generation — embed script in `src/unnamed/part_015`
(`embedChunks`) and the query embedders of `src/src/app/api/chat/route.ts`
and `src/scripts/semantic-search.ts`

The Voyage AI service is external; the model records the calls made to it
(`EmbedCall`) and takes the returned vectors from an oracle. -/

/-- The asymmetric encoding mode passed as `inputType`. -/
inductive EmbedMode where
  | document
  | query
deriving DecidableEq

/-- One call to the embedding service, with its provider options. -/
structure EmbedCall where
  texts : List String
  inputType : EmbedMode
  outputDimension : Nat
deriving DecidableEq

/-- The batch loop of `embedChunks` (embed script): one `embedMany` call per
batch of 50 chunk texts, always with `inputType: "document"` and
`outputDimension: 1024`; embedding `j` is re-attached to chunk `j` of the
batch.  Returns the embedded chunks together with the trace of service
calls made. -/
def embedChunksAux (oracle : EmbedCall → List (List ℚ)) :
    List (List Chunk) → List (Chunk × List ℚ) × List EmbedCall
  | [] => ([], [])
  | b :: bs =>
    let call : EmbedCall := { texts := b.map (·.text), inputType := .document, outputDimension := 1024 }
    let rest := embedChunksAux oracle bs
    (b.zip (oracle call) ++ rest.1, call :: rest.2)

/-- Model of `embedChunks`: batch size `EMBED_BATCH_SIZE = 50`. -/
def embedChunks (oracle : EmbedCall → List (List ℚ)) (chunks : List Chunk) :
    List (Chunk × List ℚ) × List EmbedCall :=
  embedChunksAux oracle (toBatches 50 chunks)

/-- Mock query embedding of the chat route (route.ts line 40):
`Array.from({ length: 1024 }, () => Math.random() * 2 - 1)`. -/
def routeMockEmbedding (rand : Nat → ℚ) : List ℚ :=
  (List.range 1024).map (fun i => rand i * 2 - 1)

/-- Model of `generateQueryEmbedding` (route.ts lines 26-41): when a Voyage
model handle exists, one `embed` call with `inputType: "query"`,
`outputDimension: 1024`; otherwise the mock embedding, with no service call
and no error.  Returns the vector and the trace of service calls. -/
def generateQueryEmbedding (voyageEmbeddingModel : Option (EmbedCall → List ℚ))
    (rand : Nat → ℚ) (query : String) : List ℚ × List EmbedCall :=
  match voyageEmbeddingModel with
  | some embed =>
    let call : EmbedCall := { texts := [query], inputType := .query, outputDimension := 1024 }
    (embed call, [call])
  | none => (routeMockEmbedding rand, [])

/-- The single `embedMany` call of `generateQuestionEmbedding`
(semantic-search.ts lines 46-64). -/
def generateQuestionEmbeddingCall (question : String) : EmbedCall :=
  { texts := [question], inputType := .query, outputDimension := 1024 }

/-! ## Vector retrieval — `searchSimilarChunks` in route.ts (lines 46-69)
and semantic-search.ts (lines 72-113)

Both run the same SQL: select rows `WHERE embedding IS NOT NULL`, `ORDER BY
embedding <=> queryVector` ascending, `LIMIT k`, with
`similarity = 1 - (embedding <=> queryVector)` computed in the SELECT list.
The store's native distance operator `<=>` is external, so it is a
parameter `dist`.  `ORDER BY` alone does not specify the relative order of
rows with equal distance; the model refines it to a stable sort over the
stored row order, which is what a sequential scan yields. -/

/-- Rational dot product. -/
def dotQ (a b : List ℚ) : ℚ :=
  (List.zipWith (· * ·) a b).sum

/-- Cosine distance for unit-norm vectors: pgvector's `<=>` operator equals
`1 - dot a b` when both vectors have norm 1.  Used to instantiate the
abstract `dist` parameter at concrete inputs. -/
def cosDistUnit (a b : List ℚ) : ℚ :=
  1 - dotQ a b

/-- The candidate rows of the query: stored rows with a non-null embedding,
paired with that embedding, in stored order. -/
def embeddedRows (store : List DBRow) : List (DBRow × List ℚ) :=
  store.filterMap (fun r => r.embedding.map (fun e => (r, e)))

/-- The comparison of the `ORDER BY embedding <=> queryVector` clause. -/
def distLE (dist : List ℚ → List ℚ → ℚ) (qv : List ℚ) (a b : DBRow × List ℚ) : Bool :=
  decide (dist qv a.2 ≤ dist qv b.2)

/-- Candidates ranked by ascending distance to the query vector (stable in
stored row order). -/
def rankedRows (dist : List ℚ → List ℚ → ℚ) (store : List DBRow) (qv : List ℚ) :
    List (DBRow × List ℚ) :=
  (embeddedRows store).mergeSort (distLE dist qv)

/-- The SELECT-list projection of the chat route's query: id, text, source,
heading, title, slug, start_line, end_line and the computed similarity. -/
structure RouteRow where
  id : String
  text : String
  source : String
  heading : Option String
  title : Option String
  slug : Option String
  startLine : Nat
  endLine : Nat
  similarity : ℚ
deriving DecidableEq

/-- Projection of a stored row to a result row of the chat route's query,
with `similarity = 1 - (embedding <=> queryVector)`. -/
def routeProj (dist : List ℚ → List ℚ → ℚ) (qv : List ℚ) (p : DBRow × List ℚ) : RouteRow :=
  { id := p.1.id
    text := p.1.text
    source := p.1.source
    heading := p.1.heading
    title := p.1.title
    slug := p.1.slug
    startLine := p.1.startLine
    endLine := p.1.endLine
    similarity := 1 - dist qv p.2 }

/-- Model of `searchSimilarChunks` in route.ts: top-`limit` candidates by
ascending distance, projected with their similarity. -/
def searchSimilarChunks (dist : List ℚ → List ℚ → ℚ) (store : List DBRow)
    (qv : List ℚ) (limit : Nat) : List RouteRow :=
  ((rankedRows dist store qv).take limit).map (routeProj dist qv)

/-- The SELECT-list projection of the semantic-search script's query
(interface `SearchResult`: no line numbers). -/
structure SearchResult where
  id : String
  text : String
  source : String
  heading : Option String
  title : Option String
  slug : Option String
  similarity : ℚ
deriving DecidableEq

/-- Projection of a stored row to a `SearchResult` of the script's query. -/
def scriptProj (dist : List ℚ → List ℚ → ℚ) (qv : List ℚ) (p : DBRow × List ℚ) : SearchResult :=
  { id := p.1.id
    text := p.1.text
    source := p.1.source
    heading := p.1.heading
    title := p.1.title
    slug := p.1.slug
    similarity := 1 - dist qv p.2 }

/-- Model of `searchSimilarChunks` in semantic-search.ts: the same SQL
query, followed by the post-filter
`results.filter(r => r.similarity >= similarityThreshold)` applied to the
already-limited result list. -/
def searchSimilarChunksScript (dist : List ℚ → List ℚ → ℚ) (store : List DBRow)
    (qv : List ℚ) (limit : Nat) (similarityThreshold : ℚ) : List SearchResult :=
  (((rankedRows dist store qv).take limit).map (scriptProj dist qv)).filter
    (fun r => decide (similarityThreshold ≤ r.similarity))

/-! ## Context assembly and citations — `buildContext` in route.ts (lines
74-100), `buildContext` in the RAG query script of `src/unnamed/part_015`
(lines 397-427), and the citation mapping of `POST` (route.ts lines
184-193)

The numeric rendering `(similarity * 100).toFixed(1)` is presentational
JavaScript number formatting and is abstracted as a parameter `fmtPct`. -/

/-- One `--- Document i ---` entry of the chat route's context string. -/
def routeContextEntry (fmtPct : ℚ → String) (idx : Nat) (chunk : RouteRow) : String :=
  String.intercalate "\n"
    (["--- Document " ++ toString (idx + 1) ++ " ---",
      "Title: " ++ jsOr chunk.title "N/A",
      "Source: " ++ chunk.source]
      ++ (if jsTruthy chunk.heading then ["Section: " ++ (chunk.heading.getD "")] else [])
      ++ (if jsTruthy chunk.slug then
            ["URL: https://developer.mozilla.org/en-US/docs/" ++ (chunk.slug.getD "")]
          else [])
      ++ ["Relevance: " ++ fmtPct (chunk.similarity * 100) ++ "%",
          "\nContent:\n" ++ chunk.text,
          ""])

/-- Model of `buildContext` in route.ts: per-chunk entries joined by
newlines, with no special case for an empty result list. -/
def routeBuildContext (fmtPct : ℚ → String) (chunks : List RouteRow) : String :=
  String.intercalate "\n" (mapWithIdx (routeContextEntry fmtPct) 0 chunks)

/-- One `--- Document i ---` entry of the RAG query script's context string
(same field order as the route's). -/
def ragContextEntry (fmtPct : ℚ → String) (idx : Nat) (result : SearchResult) : String :=
  String.intercalate "\n"
    (["--- Document " ++ toString (idx + 1) ++ " ---",
      "Title: " ++ jsOr result.title "N/A",
      "Source: " ++ result.source]
      ++ (if jsTruthy result.heading then ["Section: " ++ (result.heading.getD "")] else [])
      ++ (if jsTruthy result.slug then
            ["URL: https://developer.mozilla.org/en-US/docs/" ++ (result.slug.getD "")]
          else [])
      ++ ["Relevance: " ++ fmtPct (result.similarity * 100) ++ "%",
          "\nContent:\n" ++ result.text,
          ""])

/-- Model of `buildContext` in the RAG query script: the fixed sentinel on
an empty result list, otherwise the joined entries. -/
def ragBuildContext (fmtPct : ℚ → String) (results : List SearchResult) : String :=
  if results.length = 0 then "No relevant documentation found."
  else String.intercalate "\n" (mapWithIdx (ragContextEntry fmtPct) 0 results)

/-- The citation record prepared for the frontend by `POST` (route.ts). -/
structure Citation where
  id : String
  mdnTitle : String
  mdnUrl : String
  excerpt : String
deriving DecidableEq

/-- One citation of the chat route (route.ts lines 184-193): 1-based rank
as string id, title/url fallbacks by JS truthiness, and
`chunk.text.substring(0, 200) + "..."` as excerpt. -/
def routeCitation (idx : Nat) (chunk : RouteRow) : Citation :=
  { id := toString (idx + 1)
    mdnTitle :=
      if jsTruthy chunk.title then
        (chunk.title.getD "") ++ " - " ++ jsTemplate chunk.heading
      else jsOr chunk.heading "MDN Documentation"
    mdnUrl :=
      if jsTruthy chunk.slug then
        "https://developer.mozilla.org/en-US/docs/" ++ (chunk.slug.getD "")
          ++ "#line-" ++ toString chunk.startLine
      else "https://developer.mozilla.org/en-US/docs/Web/JavaScript"
    excerpt := strTake 200 chunk.text ++ "..." }

/-- The citation list of the chat route: `similarChunks.map((chunk, idx) => ...)`. -/
def routeCitations (chunks : List RouteRow) : List Citation :=
  mapWithIdx routeCitation 0 chunks

/-! ## Concrete sample data used by witnesses and counterexamples -/

/-- A stored row with no optional metadata, used as a base for samples. -/
def baseRow : DBRow :=
  { id := "x", text := "", characterCount := 0, wordCount := 0, embedding := none,
    source := "x.md", chunkIndex := 0, startLine := 1, endLine := 1,
    heading := none, headingLevel := none, title := none, slug := none,
    pageType := none, sidebar := none }

/-- A stored row for chunk id `intro_chunk_0` holding the text `"old"`. -/
def storedOldRow : DBRow :=
  { baseRow with id := "intro_chunk_0", text := "old", characterCount := 3, wordCount := 1 }

/-- A re-ingested chunk with the same id `intro_chunk_0` and new text. -/
def reingestedChunk : Chunk :=
  { id := "intro_chunk_0", text := "new", characterCount := 3, wordCount := 1,
    metadata :=
      { source := "intro.md", chunkIndex := 0, startLine := 1, endLine := 1,
        heading := "", headingLevel := 0, title := none, slug := none,
        pageType := none, sidebar := none } }

/-- The store used in the C1 scenario: one previously ingested row. -/
def storeOld : List DBRow := [storedOldRow]

/-- A stored row whose unit-norm embedding points away from the query
vector `[1, 0]`, so its cosine similarity is negative. -/
def negSimRow : DBRow :=
  { baseRow with id := "neg", text := "t", embedding := some [-1, 0] }

/-- A store holding exactly one embedded row of negative similarity. -/
def storeNeg : List DBRow := [negSimRow]

/-- A row ingested first (stored earlier) with the larger `chunkIndex`. -/
def rowTieA : DBRow :=
  { baseRow with id := "a", text := "ta", chunkIndex := 5, embedding := some [1, 0] }

/-- A row ingested second (stored later) with the smaller `chunkIndex`. -/
def rowTieB : DBRow :=
  { baseRow with id := "b", text := "tb", chunkIndex := 2, embedding := some [1, 0] }

/-- A store with two rows at identical embeddings (hence tied similarity
under every distance operator), stored in descending `chunkIndex` order. -/
def storeTie : List DBRow := [rowTieA, rowTieB]

/-- A retrieved row whose chunk text is shorter than 200 characters. -/
def shortTextRow : RouteRow :=
  { id := "s", text := "hi", source := "s.md", heading := none, title := none,
    slug := none, startLine := 1, endLine := 1, similarity := 1 }

/-- A markdown file with a front-matter block on lines 1-3 and a body that
gray-matter returns with one leading blank line. -/
def fmContent : String := "---\ntitle: Functions\n---\n\n# Functions\nBody"

/-- The gray-matter body of `fmContent` (everything after the closing
delimiter line). -/
def fmRaw : String := "\n# Functions\nBody"

/-! ## Helper lemmas -/

theorem mapWithIdx_length (f : Nat → α → β) : ∀ (n : Nat) (l : List α),
    (mapWithIdx f n l).length = l.length
  | _, [] => rfl
  | n, _ :: as => by simp [mapWithIdx, mapWithIdx_length f (n + 1) as]

theorem mapWithIdx_map_of_comp (f : Nat → α → β) (g : β → γ) (h : α → γ)
    (hfg : ∀ i a, g (f i a) = h a) : ∀ (n : Nat) (l : List α),
    (mapWithIdx f n l).map g = l.map h
  | _, [] => rfl
  | n, a :: as => by
    simp [mapWithIdx, hfg, mapWithIdx_map_of_comp f g h hfg (n + 1) as]

theorem routeCitations_ids : ∀ (n : Nat) (l : List RouteRow),
    (mapWithIdx routeCitation n l).map (·.id)
      = (List.range' n l.length).map (fun i => toString (i + 1))
  | _, [] => rfl
  | n, a :: as => by
    simp only [mapWithIdx, List.map_cons, List.length_cons, List.range'_succ]
    exact congrArg _ (routeCitations_ids (n + 1) as)

theorem embedChunksAux_calls_document (oracle : EmbedCall → List (List ℚ)) :
    ∀ bs : List (List Chunk),
      ((embedChunksAux oracle bs).2.all
        (fun c => decide (c.inputType = EmbedMode.document))) = true
  | [] => rfl
  | b :: bs => by
    simp only [embedChunksAux, List.all_cons, Bool.and_eq_true, decide_eq_true_eq]
    exact ⟨trivial, embedChunksAux_calls_document oracle bs⟩

/-! ## Claim theorems -/

/-- C2.  Every embedding call made at ingestion time (the batched
`embedMany` calls of `embedChunks`) passes `inputType: "document"`, and the
query-time embedding calls (the chat route's `generateQueryEmbedding` when
a Voyage handle exists, and the search script's
`generateQuestionEmbedding`) pass `inputType: "query"`; the chat route
makes exactly one such call per question.  Modes are never swapped. -/
theorem embedding_mode_asymmetry (oracle : EmbedCall → List (List ℚ))
    (chunks : List Chunk) (embed1 : EmbedCall → List ℚ) (rand : Nat → ℚ)
    (q question : String) :
    ((embedChunks oracle chunks).2.all
        (fun c => decide (c.inputType = EmbedMode.document)) = true) ∧
    ((generateQueryEmbedding (some embed1) rand q).2.all
        (fun c => decide (c.inputType = EmbedMode.query)) = true) ∧
    ((generateQueryEmbedding (some embed1) rand q).2.length = 1) ∧
    ((generateQuestionEmbeddingCall question).inputType = EmbedMode.query) := by
  refine ⟨?_, ?_, rfl, rfl⟩
  · exact embedChunksAux_calls_document oracle (toBatches 50 chunks)
  · rfl

/-- C7 (counterexample).  The chat route's `buildContext` has no sentinel
branch: on an empty retrieval result list it returns the empty string, not
a fixed non-empty sentinel.  The percentage formatter is irrelevant on an
empty list and is instantiated with a constant. -/
theorem route_empty_context_counterexample :
    routeBuildContext (fun _ => "") [] = "" ∧
    (routeBuildContext (fun _ => "") []).length = 0 := by
  exact ⟨rfl, rfl⟩

/-- C7 (amended).  On an empty retrieval result list, the RAG query
script's `buildContext` returns the fixed sentinel
`"No relevant documentation found."`, while the chat route's
`buildContext` returns the empty string; the chat route's citation list is
empty in that case. -/
theorem empty_retrieval_context (fmtPct : ℚ → String) :
    ragBuildContext fmtPct [] = "No relevant documentation found." ∧
    routeBuildContext fmtPct [] = "" ∧
    routeCitations [] = [] := by
  exact ⟨rfl, rfl, rfl⟩

/-- C8.  For every non-empty retrieval result list of length `n`, the chat
route's citation list has length `n` and its ids are exactly the decimal
strings of `1..n` in rank order — contiguous, no gaps, no duplicates. -/
theorem citation_indices_contiguous (chunks : List RouteRow) (_h : chunks ≠ []) :
    (routeCitations chunks).length = chunks.length ∧
    (routeCitations chunks).map (·.id)
      = (List.range chunks.length).map (fun i => toString (i + 1)) := by
  refine ⟨mapWithIdx_length _ _ _, ?_⟩
  rw [routeCitations, routeCitations_ids 0 chunks, List.range_eq_range']

/-- C8 (witness): the theorem applied to a concrete singleton result list. -/
theorem citation_indices_contiguous_witness :
    [shortTextRow] ≠ [] ∧
    (routeCitations [shortTextRow]).length = [shortTextRow].length ∧
    (routeCitations [shortTextRow]).map (·.id)
      = (List.range [shortTextRow].length).map (fun i => toString (i + 1)) :=
  ⟨by decide, citation_indices_contiguous [shortTextRow] (by decide)⟩

/-- C9 (counterexample).  The citation excerpt for a 2-character chunk text
is `"hi..."`: the ellipsis is appended even though nothing was truncated,
so the excerpt differs from the chunk text, contradicting the claim that
a text of at most 200 characters appears unmodified with no ellipsis. -/
theorem citation_excerpt_counterexample :
    (routeCitations [shortTextRow]).map (·.excerpt) = ["hi..."] ∧
    shortTextRow.text.length ≤ 200 ∧
    "hi..." ≠ "hi" := by
  refine ⟨rfl, by decide, by decide⟩

/-- C9 (amended).  For every retrieved chunk, the citation excerpt equals
the first 200 characters of the chunk text with an ellipsis appended
unconditionally (`chunk.text.substring(0, 200) + "..."`), regardless of
whether the text was truncated. -/
theorem citation_excerpt_always_ellipsis (chunks : List RouteRow) :
    (routeCitations chunks).map (·.excerpt)
      = chunks.map (fun c => strTake 200 c.text ++ "...") :=
  mapWithIdx_map_of_comp routeCitation (·.excerpt) _ (fun _ _ => rfl) 0 chunks

/-- C10.  When no Voyage API key is configured (`voyageEmbeddingModel` is
null), the chat route's `generateQueryEmbedding` raises no error and makes
no embedding-service call: it returns the mock embedding, a vector of
exactly 1024 entries, each equal to `rand * 2 - 1` for a random draw
`rand` in `[0, 1)` and hence lying in `[-1, 1)`. -/
theorem mock_query_embedding_on_missing_key (rand : Nat → ℚ) (q : String)
    (h0 : ∀ i, 0 ≤ rand i) (h1 : ∀ i, rand i < 1) :
    (generateQueryEmbedding none rand q).1.length = 1024 ∧
    (generateQueryEmbedding none rand q).1.all
      (fun x => decide (-1 ≤ x) && decide (x < 1)) = true ∧
    (generateQueryEmbedding none rand q).2 = [] := by
  refine ⟨by simp [generateQueryEmbedding, routeMockEmbedding], ?_, rfl⟩
  simp only [generateQueryEmbedding, routeMockEmbedding, List.all_eq_true,
    List.mem_map, List.mem_range, Bool.and_eq_true, decide_eq_true_eq]
  rintro x ⟨i, -, rfl⟩
  constructor
  · linarith [h0 i]
  · linarith [h1 i]

theorem dropWhile_eq_drop_length_takeWhile (p : α → Bool) : ∀ l : List α,
    l.dropWhile p = l.drop (l.takeWhile p).length
  | [] => rfl
  | a :: as => by
    by_cases h : p a
    · simp [List.dropWhile_cons, List.takeWhile_cons, h,
        dropWhile_eq_drop_length_takeWhile p as]
    · simp [List.dropWhile_cons, List.takeWhile_cons, h]

/-- C4.  The front-matter line offset computed by `chunkMarkdownFile`
equals the 1-indexed line number of the closing front-matter delimiter
(`closingDelimiterIdx + 1`) plus the number of leading blank lines trimmed
from the gray-matter body; when gray-matter detected no front matter (the
body equals the raw file content) the delimiter contribution is 0, the
offset is just the trimmed-blank-line count, and the body passed downstream
is the raw text itself minus exactly those counted leading newlines. -/
theorem frontmatter_offset_spec (content raw : String) :
    (content ≠ raw → ∀ j, closingDelimiterIdx content = some j →
        frontmatterLineOffset content raw = (j + 1) + leadingNewlines raw) ∧
    (content = raw → calculateFrontmatterOffset content raw = 0 ∧
        frontmatterLineOffset content raw = leadingNewlines raw) ∧
    dropLeadingNewlines raw = String.mk (raw.data.drop (leadingNewlines raw)) := by
  refine ⟨?_, ?_, ?_⟩
  · intro hne j hj
    have hbeq : (content == raw) = false := beq_eq_false_iff_ne.mpr hne
    simp [frontmatterLineOffset, calculateFrontmatterOffset, hbeq, hj]
  · intro heq
    subst heq
    simp [frontmatterLineOffset, calculateFrontmatterOffset]
  · simp only [dropLeadingNewlines, leadingNewlines,
      dropWhile_eq_drop_length_takeWhile]

/-- C4 (witness): the theorem applied to a concrete file whose closing
delimiter sits on line 3 and whose body starts with one blank line, and to
a file without front matter. -/
theorem frontmatter_offset_spec_witness :
    fmContent ≠ fmRaw ∧ closingDelimiterIdx fmContent = some 2 ∧
    frontmatterLineOffset fmContent fmRaw = (2 + 1) + leadingNewlines fmRaw ∧
    calculateFrontmatterOffset fmRaw fmRaw = 0 ∧
    frontmatterLineOffset fmRaw fmRaw = leadingNewlines fmRaw :=
  ⟨by decide, by decide,
    (frontmatter_offset_spec fmContent fmRaw).1 (by decide) 2 (by decide),
    ((frontmatter_offset_spec fmRaw fmRaw).2.1 rfl).1,
    ((frontmatter_offset_spec fmRaw fmRaw).2.1 rfl).2⟩

theorem hasConflict_eq_false {store rows : List DBRow}
    (h : hasConflict store rows = false) :
    (∀ r ∈ rows, ∀ s ∈ store, (s.id == r.id) = false) ∧ hasDupIds rows = false := by
  simp only [hasConflict, Bool.or_eq_false_iff] at h
  refine ⟨?_, h.2⟩
  intro r hr s hs
  have h1 := h.1
  rw [List.any_eq_false] at h1
  have h2 := Bool.eq_false_iff.mpr (h1 r hr)
  rw [List.any_eq_false] at h2
  exact Bool.eq_false_iff.mpr (h2 s hs)

theorem hasDupIds_append (store rows : List DBRow)
    (h1 : hasDupIds store = false)
    (hcross : ∀ r ∈ rows, ∀ s ∈ store, (s.id == r.id) = false)
    (hdup : hasDupIds rows = false) :
    hasDupIds (store ++ rows) = false := by
  induction store with
  | nil => simpa using hdup
  | cons s ss ih =>
    simp only [hasDupIds, Bool.or_eq_false_iff] at h1
    simp only [List.cons_append, hasDupIds, Bool.or_eq_false_iff]
    refine ⟨?_, ih h1.2 (fun r hr t ht => hcross r hr t (List.mem_cons_of_mem s ht))⟩
    show ((ss ++ rows).any fun t => t.id == s.id) = false
    rw [List.any_append, Bool.or_eq_false_iff]
    refine ⟨h1.1, ?_⟩
    rw [List.any_eq_false]
    intro r hr
    have hne := beq_eq_false_iff_ne.mp (hcross r hr s (List.mem_cons_self s ss))
    simp only [Bool.not_eq_true, beq_eq_false_iff_ne]
    exact fun he => hne he.symm

theorem ingestBatchesAux_nodup (bs : List (List DBRow)) :
    ∀ (n : Nat) (store : List DBRow) (stats : IngestStats),
      hasDupIds store = false → hasDupIds (ingestBatchesAux n store stats bs).1 = false := by
  induction bs with
  | nil => intro n store stats h; exact h
  | cons b bs ih =>
    intro n store stats h
    by_cases hc : hasConflict store b = true
    · simpa [ingestBatchesAux, insertValues, hc] using ih (n + 1) store _ h
    · have hc' : hasConflict store b = false := by simpa using hc
      obtain ⟨hcross, hdup⟩ := hasConflict_eq_false hc'
      simpa [ingestBatchesAux, insertValues, hc'] using
        ih (n + 1) (store ++ b) _ (hasDupIds_append store b h hcross hdup)

/-- C1 (counterexample).  Re-ingesting a chunk whose id already exists in
the store does not overwrite the existing row: the plain
`db.insert(...).values(...)` of ingest-chunks.ts (no `onConflictDoUpdate`)
violates the primary key, the batch fails and is skipped, and the store
keeps the old row's text while an error is recorded — contradicting the
claim that such a write overwrites rather than failing. -/
theorem ingest_upsert_counterexample :
    (ingestChunks storeOld false (fun _ => 0) 100 [reingestedChunk]).1 = storeOld ∧
    ((ingestChunks storeOld false (fun _ => 0) 100 [reingestedChunk]).1.map (·.text)) = ["old"] ∧
    (ingestChunks storeOld false (fun _ => 0) 100 [reingestedChunk]).2.errors ≠ [] := by
  refine ⟨by decide, by decide, by decide⟩

/-- C1 (amended).  Persisting chunk records uses a plain batched INSERT
with the chunk `id` as primary key: a run over a store with no duplicate
ids leaves the store free of duplicate ids (so there is never more than
one row per id), and a batch containing an id that already exists in the
store fails as a whole — the store is left unchanged, nothing is counted
as inserted, and the failure is recorded in the error summary — instead of
overwriting the existing row. -/
theorem ingest_insert_semantics :
    (∀ (store : List DBRow) (useMock : Bool) (rand : Nat → ℚ) (bs : Nat)
        (chunks : List Chunk), hasDupIds store = false →
        hasDupIds (ingestChunks store useMock rand bs chunks).1 = false) ∧
    (∀ (store : List DBRow) (useMock : Bool) (rand : Nat → ℚ) (bs : Nat)
        (c : Chunk), 0 < bs → store.any (fun r => r.id == c.id) = true →
        ingestChunks store useMock rand bs [c]
          = (store, { insertedChunks := 0, errors := ["Batch 1 failed"] })) := by
  constructor
  · intro store useMock rand bs chunks h
    exact ingestBatchesAux_nodup _ 1 store _ h
  · intro store useMock rand bs c hbs hc
    obtain ⟨k, rfl⟩ : ∃ k, bs = k + 1 := ⟨bs - 1, by omega⟩
    have hb : toBatches (k + 1) [c] = [[c]] := by
      simp [toBatches, toBatchesAux]
    have hconf : hasConflict store [rowOfChunk useMock rand c] = true := by
      simp only [hasConflict, hasDupIds, List.any_nil, List.any_cons, Bool.or_false]
      simpa [rowOfChunk] using hc
    simp [ingestChunks, hb, ingestBatchesAux, insertValues, hconf]
    rfl

/-- C1 (witness): the amended theorem applied to a concrete store holding
`intro_chunk_0` and a re-ingested chunk with the same id. -/
theorem ingest_insert_semantics_witness :
    hasDupIds storeOld = false ∧ 0 < 100 ∧
    storeOld.any (fun r => r.id == reingestedChunk.id) = true ∧
    hasDupIds (ingestChunks storeOld false (fun _ => 0) 100 [reingestedChunk]).1 = false ∧
    ingestChunks storeOld false (fun _ => 0) 100 [reingestedChunk]
      = (storeOld, { insertedChunks := 0, errors := ["Batch 1 failed"] }) :=
  ⟨by decide, by decide, by decide,
    ingest_insert_semantics.1 storeOld false (fun _ => 0) 100 [reingestedChunk] (by decide),
    ingest_insert_semantics.2 storeOld false (fun _ => 0) 100 reingestedChunk
      (by decide) (by decide)⟩

theorem splitOnNl_ne_nil : ∀ cs : List Char, splitOnNl cs ≠ []
  | [] => by simp [splitOnNl]
  | c :: cs => by
    unfold splitOnNl
    cases h : splitOnNl cs with
    | nil => simp
    | cons l ls => dsimp only; split <;> simp

theorem splitLines_length_pos (s : String) : 0 < (splitLines s).length := by
  rw [splitLines, List.length_map]
  exact List.length_pos.mpr (splitOnNl_ne_nil s.data)

theorem locateStartLine_lt (L : List String) (target : String) (prev : Nat) :
    prev < locateStartLine L target prev := by
  rcases hfind : (List.range' prev (L.length - prev)).find?
      (fun i => trimJS (L.getD i "") == target
        || strIncludes (L.getD i "") (strTake 50 target)) with _ | i
  · rw [locateStartLine, hfind]; dsimp only; omega
  · rw [locateStartLine, hfind]
    dsimp only
    have hmem := List.mem_of_find?_eq_some hfind
    rw [List.mem_range'] at hmem
    obtain ⟨k, -, heq⟩ := hmem
    omega

theorem calculateLineNumbers_lt (orig t : String) (prev : Nat) :
    prev < (calculateLineNumbers orig t prev).1 :=
  locateStartLine_lt _ _ _

theorem calculateLineNumbers_le (orig t : String) (prev : Nat) :
    (calculateLineNumbers orig t prev).1 ≤ (calculateLineNumbers orig t prev).2 := by
  have h := splitLines_length_pos t
  have h2 : (calculateLineNumbers orig t prev).2
      = (calculateLineNumbers orig t prev).1 + (splitLines t).length - 1 := rfl
  omega

theorem buildChunks_inv (md : String) (cl : List String) (off : Nat) (rp : String)
    (fm : FrontmatterData) :
    ∀ (ts : List String) (i prev : Nat),
      (∀ c ∈ buildChunks md cl off rp fm i prev ts,
          prev + 1 + off ≤ c.metadata.startLine ∧
          c.metadata.startLine ≤ c.metadata.endLine) ∧
      List.Chain' (fun a b => a.metadata.startLine ≤ b.metadata.startLine)
        (buildChunks md cl off rp fm i prev ts) ∧
      (buildChunks md cl off rp fm i prev ts).map (·.metadata.chunkIndex)
        = List.range' i ts.length := by
  intro ts
  induction ts with
  | nil => intro i prev; exact ⟨by simp [buildChunks], by simp [buildChunks], by simp [buildChunks]⟩
  | cons t ts ih =>
    intro i prev
    obtain ⟨ih1, ih2, ih3⟩ := ih (i + 1) (calculateLineNumbers md t prev).2
    have hlt := calculateLineNumbers_lt md t prev
    have hle := calculateLineNumbers_le md t prev
    refine ⟨?_, ?_, ?_⟩
    · intro c hc
      simp only [buildChunks] at hc
      rcases List.mem_cons.mp hc with rfl | hc'
      · constructor
        · show prev + 1 + off ≤ (calculateLineNumbers md t prev).1 + off
          omega
        · show (calculateLineNumbers md t prev).1 + off
            ≤ (calculateLineNumbers md t prev).2 + off
          omega
      · have h1 := (ih1 c hc').1
        exact ⟨by omega, (ih1 c hc').2⟩
    · simp only [buildChunks]
      rw [List.chain'_cons']
      refine ⟨?_, ih2⟩
      intro b hb
      have hbmem := List.mem_of_mem_head? hb
      have h1 := (ih1 b hbmem).1
      show (calculateLineNumbers md t prev).1 + off ≤ b.metadata.startLine
      omega
    · simp only [buildChunks, List.map_cons, List.length_cons, List.range'_succ]
      exact congrArg _ ih3

/-- C3.  For every document and every sequence of chunk texts returned by
the splitter, each chunk emitted by `chunkMarkdownFile` satisfies
`startLine <= endLine`, the `startLine` values are monotonically
non-decreasing across the emitted chunks, and the chunks carry the
ordinals `0..n-1` as `chunkIndex` in emission order (so chunkIndex order
is emission order). -/
theorem chunk_line_invariants (content raw : String) (fm : FrontmatterData)
    (path : String) (splitTexts : List String) :
    ((chunkMarkdownFile content raw fm path splitTexts).all
        (fun c => decide (c.metadata.startLine ≤ c.metadata.endLine)) = true) ∧
    List.Chain' (fun a b => a.metadata.startLine ≤ b.metadata.startLine)
      (chunkMarkdownFile content raw fm path splitTexts) ∧
    (chunkMarkdownFile content raw fm path splitTexts).map (·.metadata.chunkIndex)
      = List.range (chunkMarkdownFile content raw fm path splitTexts).length := by
  obtain ⟨h1, h2, h3⟩ := buildChunks_inv (dropLeadingNewlines raw)
    (splitLines (dropLeadingNewlines raw)) (frontmatterLineOffset content raw)
    path fm splitTexts 0 0
  have hlen : (chunkMarkdownFile content raw fm path splitTexts).length
      = splitTexts.length := by
    have := congrArg List.length h3
    simpa using this
  refine ⟨?_, h2, ?_⟩
  · rw [List.all_eq_true]
    intro c hc
    exact decide_eq_true ((h1 c hc).2)
  · rw [hlen, List.range_eq_range']
    exact h3

theorem distLE_trans (dist : List ℚ → List ℚ → ℚ) (qv : List ℚ) :
    ∀ a b c : DBRow × List ℚ, distLE dist qv a b = true → distLE dist qv b c = true →
      distLE dist qv a c = true := by
  intro a b c hab hbc
  simp only [distLE, decide_eq_true_eq] at hab hbc ⊢
  exact le_trans hab hbc

theorem distLE_total (dist : List ℚ → List ℚ → ℚ) (qv : List ℚ) :
    ∀ a b : DBRow × List ℚ, (distLE dist qv a b || distLE dist qv b a) = true := by
  intro a b
  simp only [distLE, Bool.or_eq_true, decide_eq_true_eq]
  exact le_total _ _

theorem rankedRows_sorted (dist : List ℚ → List ℚ → ℚ) (store : List DBRow) (qv : List ℚ) :
    (rankedRows dist store qv).Pairwise (fun a b => distLE dist qv a b = true) :=
  List.sorted_mergeSort (distLE_trans dist qv) (distLE_total dist qv) (embeddedRows store)

theorem mem_rankedRows {dist : List ℚ → List ℚ → ℚ} {store : List DBRow}
    {qv : List ℚ} {p : DBRow × List ℚ} (hp : p ∈ rankedRows dist store qv) :
    p.1 ∈ store ∧ p.1.embedding = some p.2 := by
  rw [rankedRows, List.mem_mergeSort, embeddedRows, List.mem_filterMap] at hp
  obtain ⟨row, hrow, heq⟩ := hp
  rw [Option.map_eq_some'] at heq
  obtain ⟨e, he, rfl⟩ := heq
  exact ⟨hrow, he⟩

/-- C5 (counterexample).  The semantic-search script's retrieval does not
return `min(k, embedded-row-count)` results: its default similarity
threshold 0.0 is applied as a post-filter after the LIMIT, so a store
holding exactly one embedded row — whose unit-norm embedding points away
from the query vector, giving similarity −1 — yields an empty result list
for `k = 5` instead of a single entry. -/
theorem retrieval_count_counterexample :
    searchSimilarChunksScript cosDistUnit storeNeg [1, 0] 5 0 = [] ∧
    min 5 (embeddedRows storeNeg).length = 1 := by
  constructor
  · have h0 : embeddedRows storeNeg = [(negSimRow, [-1, 0])] := rfl
    unfold searchSimilarChunksScript rankedRows
    rw [h0, List.mergeSort_singleton, List.take_of_length_le (by norm_num)]
    norm_num [scriptProj, cosDistUnit, dotQ, List.filter_cons, List.filter_nil,
      decide_eq_true_eq]
  · decide

/-- C5 (amended).  For every distance operator, store state, query vector
and limit `k`: the chat route's retrieval considers exactly the stored
rows with a non-null embedding, returns exactly `min(k, number of embedded
rows)` results ordered by non-increasing similarity, and every result is
the projection of a stored embedded row with
`similarity = 1 - dist(queryVector, embedding)`.  The semantic-search
script's retrieval satisfies the same ordering and provenance properties
but additionally post-filters by its similarity threshold after the LIMIT,
so it returns at most — not exactly — `min(k, embedded)` results, each
with similarity at least the threshold. -/
theorem retrieval_results_spec (dist : List ℚ → List ℚ → ℚ) (store : List DBRow)
    (qv : List ℚ) (k : Nat) (threshold : ℚ) :
    (searchSimilarChunks dist store qv k).length = min k (embeddedRows store).length ∧
    List.Chain' (fun a b => b.similarity ≤ a.similarity)
      (searchSimilarChunks dist store qv k) ∧
    (searchSimilarChunks dist store qv k).all
      (fun r => store.any (fun row =>
        decide (row.embedding.map (fun e => routeProj dist qv (row, e)) = some r))) = true ∧
    (searchSimilarChunksScript dist store qv k threshold).length
      ≤ min k (embeddedRows store).length ∧
    List.Chain' (fun a b => b.similarity ≤ a.similarity)
      (searchSimilarChunksScript dist store qv k threshold) ∧
    (searchSimilarChunksScript dist store qv k threshold).all
      (fun r => decide (threshold ≤ r.similarity)) = true ∧
    (searchSimilarChunksScript dist store qv k threshold).all
      (fun r => store.any (fun row =>
        decide (row.embedding.map (fun e => scriptProj dist qv (row, e)) = some r))) = true := by
  have hsorted : ((rankedRows dist store qv).take k).Pairwise
      (fun a b => distLE dist qv a b = true) :=
    (rankedRows_sorted dist store qv).sublist (List.take_sublist k _)
  have hdesc : ∀ (a b : DBRow × List ℚ), distLE dist qv a b = true →
      1 - dist qv b.2 ≤ 1 - dist qv a.2 := by
    intro a b hab
    rw [distLE, decide_eq_true_eq] at hab
    exact sub_le_sub_left hab 1
  refine ⟨?_, ?_, ?_, ?_, ?_, ?_, ?_⟩
  · simp [searchSimilarChunks, rankedRows]
  · rw [searchSimilarChunks, List.chain'_map]
    exact (hsorted.imp (fun hab => hdesc _ _ hab)).chain'
  · rw [List.all_eq_true]
    intro r hr
    rw [searchSimilarChunks, List.mem_map] at hr
    obtain ⟨p, hp, rfl⟩ := hr
    obtain ⟨hrow, he⟩ := mem_rankedRows (List.mem_of_mem_take hp)
    rw [List.any_eq_true]
    exact ⟨p.1, hrow, by simp [he]⟩
  · calc (searchSimilarChunksScript dist store qv k threshold).length
        ≤ (((rankedRows dist store qv).take k).map (scriptProj dist qv)).length :=
          List.length_filter_le _ _
      _ = min k (embeddedRows store).length := by simp [rankedRows]
  · rw [searchSimilarChunksScript]
    refine List.Pairwise.chain' (List.Pairwise.filter _ ?_)
    rw [List.pairwise_map]
    exact hsorted.imp (fun hab => hdesc _ _ hab)
  · rw [List.all_eq_true]
    intro r hr
    rw [searchSimilarChunksScript, List.mem_filter] at hr
    exact hr.2
  · rw [List.all_eq_true]
    intro r hr
    rw [searchSimilarChunksScript, List.mem_filter] at hr
    obtain ⟨hr, -⟩ := hr
    rw [List.mem_map] at hr
    obtain ⟨p, hp, rfl⟩ := hr
    obtain ⟨hrow, he⟩ := mem_rankedRows (List.mem_of_mem_take hp)
    rw [List.any_eq_true]
    exact ⟨p.1, hrow, by simp [he]⟩

/-- C6 (counterexample).  The retrieval SQL orders only by distance, with
no `chunkIndex` tiebreaker: on a store whose two rows carry identical
embeddings (hence tied similarity under any distance operator, including
cosine distance — here instantiated with its unit-vector form) and were
stored in descending `chunkIndex` order, the returned ranking keeps the
store order `chunkIndex 5` before `chunkIndex 2`, refuting the claim that
equal-similarity results appear in ascending `chunkIndex` order. -/
theorem retrieval_tiebreak_counterexample :
    ¬ ((rankedRows cosDistUnit storeTie [1, 0]).take 5).Pairwise
        (fun a b => cosDistUnit [1, 0] a.2 = cosDistUnit [1, 0] b.2 →
          a.1.chunkIndex ≤ b.1.chunkIndex) := by
  have h0 : embeddedRows storeTie = [(rowTieA, [1, 0]), (rowTieB, [1, 0])] := rfl
  have hs : (embeddedRows storeTie).Pairwise
      (fun a b => distLE cosDistUnit [1, 0] a b = true) := by
    rw [h0]
    refine List.Pairwise.cons (fun b hb => ?_)
      (List.Pairwise.cons (fun b hb => by simp at hb) List.Pairwise.nil)
    simp only [List.mem_singleton] at hb
    subst hb
    exact decide_eq_true (le_refl (cosDistUnit [1, 0] [1, 0]))
  have hr : rankedRows cosDistUnit storeTie [1, 0]
      = [(rowTieA, [1, 0]), (rowTieB, [1, 0])] := by
    rw [rankedRows, List.mergeSort_of_sorted hs, h0]
  rw [hr, List.take_of_length_le (by norm_num)]
  intro hpair
  have htie := (List.pairwise_cons.mp hpair).1 (rowTieB, [1, 0])
    (List.mem_cons_self _ _) rfl
  simp only [rowTieA, rowTieB, baseRow] at htie
  omega

/-- C6 (amended).  As modelled (a pure function of the store state and the
query vector), retrieval is deterministic: repeated calls with the same
arguments return the same ordered result list.  Similarity ties are not
broken by `chunkIndex`: the ranking is stable over the stored row order,
i.e. any two candidate rows already in distance order in the store keep
their relative order in the ranking — in particular tied rows come back in
store order, whatever their `chunkIndex`. -/
theorem retrieval_determinism_and_stability (dist : List ℚ → List ℚ → ℚ)
    (store : List DBRow) (qv : List ℚ) (k : Nat) (p q : DBRow × List ℚ) :
    (searchSimilarChunks dist store qv k = searchSimilarChunks dist store qv k) ∧
    (distLE dist qv p q = true → List.Sublist [p, q] (embeddedRows store) →
      List.Sublist [p, q] (rankedRows dist store qv)) := by
  refine ⟨rfl, fun h1 h2 => ?_⟩
  exact List.pair_sublist_mergeSort (distLE_trans dist qv) (distLE_total dist qv) h1 h2

/-- C6 (witness): the stability part applied to the concrete tied store —
the two tied rows (stored as `chunkIndex 5` before `chunkIndex 2`) are
returned in store order. -/
theorem retrieval_determinism_and_stability_witness :
    distLE cosDistUnit [1, 0] (rowTieA, [1, 0]) (rowTieB, [1, 0]) = true ∧
    List.Sublist [(rowTieA, [1, 0]), (rowTieB, [1, 0])] (embeddedRows storeTie) ∧
    List.Sublist [(rowTieA, [1, 0]), (rowTieB, [1, 0])] (rankedRows cosDistUnit storeTie [1, 0]) := by
  have hle : distLE cosDistUnit [1, 0] (rowTieA, [1, 0]) (rowTieB, [1, 0]) = true :=
    decide_eq_true (le_refl (cosDistUnit [1, 0] [1, 0]))
  have hsub : List.Sublist [(rowTieA, [1, 0]), (rowTieB, [1, 0])] (embeddedRows storeTie) := by
    have h0 : embeddedRows storeTie = [(rowTieA, [1, 0]), (rowTieB, [1, 0])] := rfl
    rw [h0]
  exact ⟨hle, hsub,
    (retrieval_determinism_and_stability cosDistUnit storeTie [1, 0] 5
      (rowTieA, [1, 0]) (rowTieB, [1, 0])).2 hle hsub⟩

/-- C10 (witness): the theorem applied to the constant draw 1/2. -/
theorem mock_query_embedding_witness :
    (0 : ℚ) ≤ 1 / 2 ∧ (1 : ℚ) / 2 < 1 ∧
    (generateQueryEmbedding none (fun _ => 1 / 2) "q").1.length = 1024 ∧
    (generateQueryEmbedding none (fun _ => 1 / 2) "q").1.all
      (fun x => decide (-1 ≤ x) && decide (x < 1)) = true ∧
    (generateQueryEmbedding none (fun _ => 1 / 2) "q").2 = [] :=
  ⟨by norm_num, by norm_num,
    mock_query_embedding_on_missing_key (fun _ => 1 / 2) "q"
      (fun _ => by norm_num) (fun _ => by norm_num)⟩

end RagMdn
